import Mathlib

/-!
Verification of the couchbase eventing Producer/Consumer supervision layer.

Shallow embedding of:
  * `producer/vbucket_node_assignment.go` — `vbEventingNodeAssign`, `initWorkerVbMap`
  * `consumer/vbucket_takeover.go` — `doVbTakeover`, `vbGiveUpRoutine` (poll step),
    `updateVbOwnerAndStartDCPStream`, `updateCheckpoint`
  * the depcfg/settings loader `parseDepcfg`
  * the host↔worker IPC codec (`makeHeader`/`readHeader` and the payload builders)

Pure data flows become Lean functions; the stateful pieces become explicit
state-passing functions that additionally log their externally visible effects.
-/

namespace Eventing

/-- DCP stream status value for an open stream.
Modelled from the spec: the status string constants are declared elsewhere in
the consumer package (not among the provided sources); §3 of the spec fixes the
status domain to `uninitialised | running | stopped`. Only the distinctness of
the three tokens matters to the claims. -/
def dcpStreamRunning : String := "running"

/-- DCP stream status value for a closed stream. Modelled from the spec (see
`dcpStreamRunning`). -/
def dcpStreamStopped : String := "stopped"

/-- DCP stream status value for a never-opened stream. Modelled from the spec
(see `dcpStreamRunning`). -/
def dcpStreamUninitialised : String := "uninitialised"

/-- The per-(app, vbucket) checkpoint blob `vbucketKVBlob`, with the fields the
provided sources read or write (matching the spec's §3 CheckpointBlob table). -/
structure vbucketKVBlob where
  assignedDocIDTimerWorker : String
  assignedWorker : String
  currentVBOwner : String
  dcpStreamStatus : String
  lastCheckpointTime : String
  nodeUUID : String
  previousAssignedWorker : String
  previousEventingDir : String
  previousNodeUUID : String
  previousVBOwner : String
  lastSeqNoProcessed : Nat
  lastDocTimerFeedbackSeqNo : Nat
  deriving Repr, DecidableEq

/-- The identity of one Consumer instance: the accessors `c.NodeUUID()`,
`c.ConsumerName()`, `c.HostPortAddr()` and the field `c.eventingDir`. -/
structure ConsumerIdent where
  nodeUUID : String
  consumerName : String
  hostPortAddr : String
  eventingDir : String
  deriving Repr, DecidableEq

/-! ## `doVbTakeover` (consumer/vbucket_takeover.go lines 269-330) -/

/-- Fine-grained control-flow outcome of `doVbTakeover`: one constructor per
`return` statement, so that distinct source branches returning the same Go
value stay distinguishable. -/
inductive TakeoverBranch where
  /-- line 290: stream running and this very consumer already owns the vb. -/
  | skipAlreadyOwner
  /-- line 297: the inner `errVbOwnedByAnotherWorker` return inside the
  dead-owner path. -/
  | ownedByAnotherWorkerInner
  /-- line 309: the takeover after the inner re-check of blob node UUID. -/
  | takeoverAfterRecheck
  /-- line 311: the direct takeover in the dead-owner path. -/
  | takeoverDirect
  /-- line 315: `errVbOwnedByAnotherWorker` outside the dead-owner path. -/
  | ownedByAnotherWorkerOuter
  /-- line 318: `errVbOwnedByAnotherNode`. -/
  | ownedByAnotherNode
  /-- line 325: stream status stopped or uninitialised, take over. -/
  | takeoverStoppedOrUninit
  /-- line 328: any other stream status. -/
  | unexpectedStreamStatus
  deriving Repr, DecidableEq

/-- Control-flow skeleton of `Consumer::doVbTakeover` over the checkpoint blob
it read. `alive` stands for
`c.producer.IsEventingNodeAlive(vbBlob.CurrentVBOwner, vbBlob.NodeUUID)` and
`shouldOwn` for `c.checkIfCurrentNodeShouldOwnVb(vb)`; both are opaque oracle
answers to the embedding. -/
def doVbTakeoverB (c : ConsumerIdent) (alive shouldOwn : Bool)
    (vbBlob : vbucketKVBlob) : TakeoverBranch :=
  if vbBlob.dcpStreamStatus = dcpStreamRunning then
    if vbBlob.nodeUUID = c.nodeUUID ∧ vbBlob.assignedWorker = c.consumerName then
      .skipAlreadyOwner
    else if c.nodeUUID ≠ vbBlob.nodeUUID ∧ alive = false ∧ shouldOwn = true then
      if vbBlob.nodeUUID = c.nodeUUID ∧ vbBlob.assignedWorker ≠ c.consumerName then
        .ownedByAnotherWorkerInner
      else if vbBlob.nodeUUID = c.nodeUUID ∧ vbBlob.assignedWorker = c.consumerName then
        .takeoverAfterRecheck
      else
        .takeoverDirect
    else if vbBlob.nodeUUID = c.nodeUUID ∧ vbBlob.assignedWorker ≠ c.consumerName then
      .ownedByAnotherWorkerOuter
    else
      .ownedByAnotherNode
  else if vbBlob.dcpStreamStatus = dcpStreamStopped ∨
      vbBlob.dcpStreamStatus = dcpStreamUninitialised then
    .takeoverStoppedOrUninit
  else
    .unexpectedStreamStatus

/-- The observable outcome of `doVbTakeover`, identifying branches that return
the same value: both `errVbOwnedByAnotherWorker` returns collapse, and every
path that calls `updateVbOwnerAndStartDCPStream` collapses to `takeover`. -/
inductive TakeoverResult where
  | success
  | takeover
  | errVbOwnedByAnotherWorker
  | errVbOwnedByAnotherNode
  | errUnexpectedVbStreamStatus
  deriving Repr, DecidableEq

/-- Collapse a control-flow branch to the value `doVbTakeover` returns on it. -/
def TakeoverBranch.result : TakeoverBranch → TakeoverResult
  | .skipAlreadyOwner => .success
  | .ownedByAnotherWorkerInner => .errVbOwnedByAnotherWorker
  | .takeoverAfterRecheck => .takeover
  | .takeoverDirect => .takeover
  | .ownedByAnotherWorkerOuter => .errVbOwnedByAnotherWorker
  | .ownedByAnotherNode => .errVbOwnedByAnotherNode
  | .takeoverStoppedOrUninit => .takeover
  | .unexpectedStreamStatus => .errUnexpectedVbStreamStatus

/-- Observable outcome of `Consumer::doVbTakeover`. -/
def doVbTakeover (c : ConsumerIdent) (alive shouldOwn : Bool)
    (vbBlob : vbucketKVBlob) : TakeoverResult :=
  (doVbTakeoverB c alive shouldOwn vbBlob).result

/-! ## The give-up poll loop (consumer/vbucket_takeover.go lines 144-169) -/

/-- One iteration decision of the `retryVbMetaStateCheck` poll loop in
`Consumer::vbGiveUpRoutine`. -/
inductive PollStep where
  /-- the `case <-c.stopVbOwnerGiveupCh` arm: routine returns. -/
  | cancelled
  /-- the retry condition at line 163 held: sleep and `goto retryVbMetaStateCheck`. -/
  | retryPoll
  /-- the loop exits gracefully for this vb. -/
  | finished
  deriving Repr, DecidableEq

/-- One poll-loop iteration of `vbGiveUpRoutine`, after the blob has been
re-read: check the cancellation channel, then the line-163 retry condition
`vbBlob.DCPStreamStatus != dcpStreamRunning ||
 (vbBlob.NodeUUID == c.NodeUUID() && vbBlob.AssignedWorker == c.ConsumerName())`. -/
def giveUpPollStep (stopSignal : Bool) (c : ConsumerIdent)
    (vbBlob : vbucketKVBlob) : PollStep :=
  if stopSignal then .cancelled
  else if vbBlob.dcpStreamStatus ≠ dcpStreamRunning ∨
      (vbBlob.nodeUUID = c.nodeUUID ∧ vbBlob.assignedWorker = c.consumerName) then
    .retryPoll
  else
    .finished

/-- The poll-loop exit condition as the spec's sentence states it (step B.4 of
§4.6): exit when `streamStatus ≠ running` or when neither the blob's node UUID
nor its assigned worker equals this consumer. Stated from the spec's words, to
be compared against `giveUpPollStep`. -/
def specGiveUpExitCond (c : ConsumerIdent) (vbBlob : vbucketKVBlob) : Bool :=
  (vbBlob.dcpStreamStatus != dcpStreamRunning) ||
    (vbBlob.nodeUUID != c.nodeUUID && vbBlob.assignedWorker != c.consumerName)

/-! ## `updateVbOwnerAndStartDCPStream` (lines 347-467) -/

/-- Externally visible side effects of `updateVbOwnerAndStartDCPStream`, in
program order. -/
inductive CEffect where
  /-- Call `c.vbProcessingStats.updateVbStat(vb, stat, n)`. -/
  | statUpdate (vb : Nat) (stat : String) (n : Nat)
  /-- Call `c.dcpRequestStreamHandle(vb, vbBlob, startSeq)` was made. -/
  | dcpStreamReq (vb : Nat) (startSeq : Nat)
  /-- the timer directory for `vb` was downloaded from the previous owner and
  its records copied into the local store. -/
  | timerDirDownload (vb : Nat)
  deriving Repr, DecidableEq

/-- Result value of `updateVbOwnerAndStartDCPStream`. -/
inductive StreamCallResult where
  /-- Go `nil`. -/
  | ok
  /-- the error propagated from a failed `dcpRequestStreamHandle`. -/
  | errStreamReqFailed
  /-- Error `errFailedConnectRemoteRPC`. -/
  | errFailedConnectRemoteRPC
  deriving Repr, DecidableEq

/-- Output of one `updateVbOwnerAndStartDCPStream` call: the updated
`vbStreamRequested` set, the effect log, and the returned value. -/
structure StreamCallOut where
  vbStreamRequested : List Nat
  effects : List CEffect
  result : StreamCallResult
  deriving Repr, DecidableEq

/-- Embedding of `Consumer::updateVbOwnerAndStartDCPStream`. `vbStreamRequested` is the
consumer's guard set (a Go `map[uint16]struct{}`, embedded as a list of
members). The outcomes of the two fallible external calls are oracle
parameters: `reqOk` for `dcpRequestStreamHandle` and `dialOk` for the
timer-transfer RPC `client.DialPath`. The address-resolution bookkeeping for
the remote RPC endpoint (lines 384-434) has no effect on the consumer state
modelled here and is elided. -/
def updateVbOwnerAndStartDCPStream (c : ConsumerIdent) (reqOk dialOk : Bool)
    (vbStreamRequested : List Nat) (vb : Nat) (vbBlob : vbucketKVBlob) :
    StreamCallOut :=
  if vb ∈ vbStreamRequested then
    { vbStreamRequested := vbStreamRequested, effects := [], result := .ok }
  else
    let requested := vb :: vbStreamRequested
    let statEffs : List CEffect :=
      [.statUpdate vb "last_processed_seq_no" vbBlob.lastSeqNoProcessed,
       .statUpdate vb "last_doc_timer_feedback_seqno" vbBlob.lastDocTimerFeedbackSeqNo]
    let streamStartSeqNo :=
      if vbBlob.lastDocTimerFeedbackSeqNo < vbBlob.lastSeqNoProcessed then
        vbBlob.lastDocTimerFeedbackSeqNo
      else
        vbBlob.lastSeqNoProcessed
    if reqOk = false then
      { vbStreamRequested := requested.erase vb,
        effects := statEffs ++ [.dcpStreamReq vb streamStartSeqNo],
        result := .errStreamReqFailed }
    else if dialOk = false then
      { vbStreamRequested := requested,
        effects := statEffs ++ [.dcpStreamReq vb streamStartSeqNo],
        result := .errFailedConnectRemoteRPC }
    else if c.nodeUUID ≠ vbBlob.previousNodeUUID then
      { vbStreamRequested := requested,
        effects := statEffs ++ [.dcpStreamReq vb streamStartSeqNo, .timerDirDownload vb],
        result := .ok }
    else
      { vbStreamRequested := requested,
        effects := statEffs ++ [.dcpStreamReq vb streamStartSeqNo],
        result := .ok }

/-! ## `updateCheckpoint` (lines 469-493) -/

/-- Embedding of `Consumer::updateCheckpoint`: the give-up checkpoint written after a
stream close. `now` stands for `time.Now().Format(time.RFC3339)`. -/
def updateCheckpoint (c : ConsumerIdent) (now : String)
    (vbBlob : vbucketKVBlob) : vbucketKVBlob :=
  { vbBlob with
    assignedDocIDTimerWorker := ""
    assignedWorker := ""
    currentVBOwner := ""
    dcpStreamStatus := dcpStreamStopped
    lastCheckpointTime := now
    nodeUUID := ""
    previousAssignedWorker := c.consumerName
    previousEventingDir := c.eventingDir
    previousNodeUUID := c.nodeUUID
    previousVBOwner := c.hostPortAddr }

/-! ## The binary application descriptor (gen/flatbuf/cfg schema) -/

/-- Schema `table Bucket` of the descriptor. -/
structure CfgBucket where
  bucketName : String
  bucketAlias : String
  scopeName : String
  collectionName : String
  deriving Repr, DecidableEq

/-- Schema `table Curl` of the descriptor. -/
structure Curl where
  hostname : String
  value : String
  authType : String
  username : String
  password : String
  bearerKey : String
  allowCookies : Bool
  validateSSLCertificate : Bool
  deriving Repr, DecidableEq

/-- Schema `table Constant` of the descriptor. -/
structure Constant where
  value : String
  literal : String
  deriving Repr, DecidableEq

/-- Schema `table DepCfg` of the descriptor. -/
structure DepCfg where
  buckets : List CfgBucket
  metadataBucket : String
  sourceBucket : String
  sourceScope : String
  sourceCollection : String
  metadataScope : String
  metadataCollection : String
  deriving Repr, DecidableEq

/-- Schema root `table Config` of the binary application descriptor. The three
`reserved*` fields are kept for backward compatibility; the schema comments
record their former names (`reserved1 // was id`, `reserved2 // was
usingTimer`, `reserved3 // was srcMutationEnabled`). -/
structure Config where
  appCode : String
  appName : String
  depCfg : DepCfg
  handlerUUID : Nat
  reserved1 : Nat
  reserved2 : Bool
  functionInstanceID : String
  reserved3 : Bool
  access : List String
  curl : List Curl
  enforceSchema : Bool
  constants : List Constant
  lifecycleState : String
  version : String
  deriving Repr, DecidableEq

/-! ## Settings JSON and `parseDepcfg` (producer depcfg parser source) -/

/-- A decoded JSON settings value. Recognized numeric options arrive as JSON
numbers (Go `float64`) and are immediately converted with `int()`/`int64()`;
they are embedded as `Int`. -/
inductive SettingVal where
  | b (v : Bool)
  | n (v : Int)
  | s (v : String)
  deriving Repr, DecidableEq

/-- The unmarshalled settings document, `map[string]interface{}`. -/
abbrev Settings := List (String × SettingVal)

/-- Go map indexing `settings[key]`: the value, or the nil interface. -/
def lookupSetting (settings : Settings) (key : String) : Option SettingVal :=
  (settings.find? (fun p => p.1 == key)).map Prod.snd

/-- The Go pattern `if val, ok := settings[key]; ok { val.(bool) } else dflt`.
A type assertion on a value of the wrong dynamic type panics; panics are
embedded as `Except.error`. -/
def getBoolD (settings : Settings) (key : String) (dflt : Bool) :
    Except String Bool :=
  match lookupSetting settings key with
  | none => .ok dflt
  | some (.b v) => .ok v
  | some _ => .error ("panic: interface conversion: " ++ key ++ " is not bool")

/-- As `getBoolD`, for numeric settings (`int(val.(float64))`). -/
def getNumD (settings : Settings) (key : String) (dflt : Int) :
    Except String Int :=
  match lookupSetting settings key with
  | none => .ok dflt
  | some (.n v) => .ok v
  | some _ => .error ("panic: interface conversion: " ++ key ++ " is not float64")

/-- As `getBoolD`, for string settings (`val.(string)`). -/
def getStrD (settings : Settings) (key : String) (dflt : String) :
    Except String String :=
  match lookupSetting settings key with
  | none => .ok dflt
  | some (.s v) => .ok v
  | some _ => .error ("panic: interface conversion: " ++ key ++ " is not string")

/-- The required-key pattern used for `rbacuser`/`rbacpass`: absence is a
returned error, not a default. -/
def getStrRequired (settings : Settings) (key errMsg : String) :
    Except String String :=
  match lookupSetting settings key with
  | none => .error errMsg
  | some (.s v) => .ok v
  | some _ => .error ("panic: interface conversion: " ++ key ++ " is not string")

/-- The bare assertion `settings[key].(string)` with no presence check: on an
absent key the nil interface fails the assertion and the program panics. -/
def getStrAssert (settings : Settings) (key : String) : Except String String :=
  match lookupSetting settings key with
  | some (.s v) => .ok v
  | _ => .error ("panic: interface conversion: " ++ key ++ " is not string")

/-- The immutable `common.AppConfig` assembled by `parseDepcfg`. -/
structure AppConfig where
  appCode : String
  appName : String
  appState : String
  appVersion : String
  lastDeploy : String
  id : Nat
  settings : Settings
  deriving Repr, DecidableEq

/-- The per-application settings fields `parseDepcfg` assigns on the producer,
in source order. `statsTickDuration` and `socketTimeoutSeconds` keep the raw
numbers the code wraps in `time.Duration`. -/
structure ProducerSettings where
  cleanupTimers : Bool
  dcpStreamBoundary : String
  logLevel : String
  statsTickDuration : Int
  workerCount : Int
  timerWorkerPoolSize : Int
  socketWriteBatchSize : Int
  skipTimerThreshold : Int
  rbacUser : String
  rbacPass : String
  lcbInstCapacity : Int
  enableRecursiveMutation : Bool
  socketTimeoutSeconds : Int
  vbOwnershipGiveUpRoutineCount : Int
  vbOwnershipTakeoverRoutineCount : Int
  executionTimeout : Int
  fuzzOffset : Int
  cppWorkerThrCount : Int
  plasmaMemQuota : Int
  xattrEntryPruneThreshold : Int
  appLogPath : String
  appLogMaxSize : Int
  appLogMaxFiles : Int
  curlTimeout : Int
  workerQueueCap : Int
  deriving Repr, DecidableEq

/-- The producer state `parseDepcfg` populates: the `AppConfig`, the source
and metadata bucket names from the descriptor, and the settings fields. -/
structure Producer where
  app : AppConfig
  bucket : String
  metadatabucket : String
  cfg : ProducerSettings
  deriving Repr, DecidableEq

/-- Rendering `fmt.Sprintf("%v", appUndeployed)`. Modelled from the spec: the
`appUndeployed` constant is declared outside the provided sources; its exact
rendering is irrelevant to the claims (it does not depend on the inputs). -/
def appUndeployedState : String := "undeployed"

/-- The settings half of `Producer::parseDepcfg`, key lookups in source
order: each recognized option gets its typed default when absent,
`rbacuser`/`rbacpass` are required, then line 220 re-asserts
`settings["log_level"].(string)` without a presence check, and finally a
non-positive `worker_count` is rejected. The trailing cluster-address RPCs
(external collaborators) are elided. -/
def parseSettingsPart (eventingDir appName : String) (settings : Settings) :
    Except String ProducerSettings := do
  let cleanupTimers ← getBoolD settings "cleanup_timers" false
  let dcpStreamBoundary ← getStrD settings "dcp_stream_boundary" "everything"
  let logLevel ← getStrD settings "log_level" "INFO"
  let statsTickDuration ← getNumD settings "tick_duration" 5000
  let workerCount ← getNumD settings "worker_count" 3
  let timerWorkerPoolSize ← getNumD settings "timer_worker_pool_size" 3
  let socketWriteBatchSize ← getNumD settings "sock_batch_size" 100
  let skipTimerThreshold ← getNumD settings "skip_timer_threshold" 86400
  let rbacUser ← getStrRequired settings "rbacuser" "rbac username missing"
  let rbacPass ← getStrRequired settings "rbacpass" "rbac password missing"
  let lcbInstCapacity ← getNumD settings "lcb_inst_capacity" 5
  let enableRecursiveMutation ← getBoolD settings "enable_recursive_mutation" false
  let socketTimeoutSeconds ← getNumD settings "deadline_timeout" 2
  let vbOwnershipGiveUpRoutineCount ←
    getNumD settings "vb_ownership_giveup_routine_count" 3
  let vbOwnershipTakeoverRoutineCount ←
    getNumD settings "vb_ownership_takeover_routine_count" 3
  let executionTimeout ← getNumD settings "execution_timeout" 1
  let fuzzOffset ← getNumD settings "fuzz_offset" 30
  let cppWorkerThrCount ← getNumD settings "cpp_worker_thread_count" 1
  let plasmaMemQuota ← getNumD settings "memory_quota" 256
  let xattrEntryPruneThreshold ←
    getNumD settings "xattr_doc_timer_entry_prune_threshold" 100
  let appLogPath ← match lookupSetting settings "app_log_dir" with
    | none => pure (eventingDir ++ "/" ++ appName ++ ".log")
    | some (.s v) => pure (v ++ "/" ++ appName)
    | some _ => .error "panic: interface conversion: app_log_dir is not string"
  let appLogMaxSize ← getNumD settings "app_log_max_size" (1024 * 1024 * 10)
  let appLogMaxFiles ← getNumD settings "app_log_max_files" 10
  let curlTimeout ← getNumD settings "curl_timeout" 500
  let workerQueueCap ← getNumD settings "worker_queue_cap" (1000 * 1000)
  let _ ← getStrAssert settings "log_level"
  if workerCount ≤ 0 then
    .error "errorUnexpectedWorkerCount"
  else
    .ok {
      cleanupTimers, dcpStreamBoundary, logLevel, statsTickDuration,
      workerCount, timerWorkerPoolSize, socketWriteBatchSize,
      skipTimerThreshold, rbacUser, rbacPass, lcbInstCapacity,
      enableRecursiveMutation, socketTimeoutSeconds,
      vbOwnershipGiveUpRoutineCount, vbOwnershipTakeoverRoutineCount,
      executionTimeout, fuzzOffset, cppWorkerThrCount, plasmaMemQuota,
      xattrEntryPruneThreshold, appLogPath, appLogMaxSize, appLogMaxFiles,
      curlTimeout, workerQueueCap }

/-- Embedding of `Producer::parseDepcfg` over an already-decoded descriptor and settings
document. `hash` stands for `util.GetHash` and `now` for the formatted
deployment timestamp. `p.app.ID = int(config.Id())` reads the descriptor slot
the schema now names `reserved1` (`// was id`), so the embedding copies
`config.reserved1` into `app.id`. -/
def parseDepcfg (hash : String → String) (now eventingDir appName : String)
    (config : Config) (settings : Settings) : Except String Producer :=
  (parseSettingsPart eventingDir appName settings).map (fun ps =>
    { app := {
        appCode := config.appCode
        appName := config.appName
        appState := appUndeployedState
        appVersion := hash config.appCode
        lastDeploy := now
        id := config.reserved1
        settings := settings }
      bucket := config.depCfg.sourceBucket
      metadatabucket := config.depCfg.metadataBucket
      cfg := ps })

/-- A small concrete descriptor used by concrete evaluations. -/
def cfg0 : Config :=
  { appCode := "function OnUpdate(doc, meta) {}"
    appName := "app1"
    depCfg := {
      buckets := []
      metadataBucket := "eventing"
      sourceBucket := "default"
      sourceScope := "_default"
      sourceCollection := "_default"
      metadataScope := "_default"
      metadataCollection := "_default" }
    handlerUUID := 42
    reserved1 := 0
    reserved2 := false
    functionInstanceID := "fiid"
    reserved3 := false
    access := ["rw"]
    curl := []
    enforceSchema := false
    constants := []
    lifecycleState := "deployed"
    version := "evt-6.0" }

/-! ## IPC codec

Modelled from the spec: the byte-level table codec is generated flatbuffers
code (`gen/flatbuf/header`, `gen/flatbuf/payload`), which is not among the
provided sources — only its callers (`makeHeader`, the payload builders,
`readHeader`/`readPayload`) are. Per §4.4/§6 each frame is a length-prefixed
table of the listed fields with little-endian numerics; the embedding encodes
exactly the fields each builder sets, in builder order: fixed-width
little-endian integers (two's complement for the signed Go types), strings as
length-prefixed byte lists, vectors as count-prefixed sequences. -/

/-- Little-endian fixed-width encoding of an unsigned value, low byte first. -/
def encLE : Nat → Nat → List Nat
  | 0, _ => []
  | w + 1, n => n % 256 :: encLE w (n / 256)

/-- Decode a `w`-byte little-endian unsigned value from the front of a byte
list, returning it with the remaining bytes. -/
def decLE : Nat → List Nat → Option (Nat × List Nat)
  | 0, bytes => some (0, bytes)
  | _ + 1, [] => none
  | w + 1, b :: bytes => (decLE w bytes).map (fun p => (b + 256 * p.1, p.2))

/-- Two's-complement little-endian encoding of a signed value (`int8`,
`int16`, `int32`, `int64` at widths 1, 2, 4, 8). -/
def encIntLE (w : Nat) (e : Int) : List Nat :=
  encLE w (e % ((256 : Int) ^ w)).toNat

/-- Decode a `w`-byte little-endian two's-complement signed value. -/
def decIntLE (w : Nat) (bytes : List Nat) : Option (Int × List Nat) :=
  (decLE w bytes).map (fun p =>
    (if 2 * p.1 < 256 ^ w then (p.1 : Int) else (p.1 : Int) - (256 : Int) ^ w,
      p.2))

/-- Length-prefixed byte-string encoding (flatbuffers strings carry their
length; Go strings are byte sequences, embedded as `List Nat`). -/
def encBytes (s : List Nat) : List Nat :=
  encLE 4 s.length ++ s

/-- Decode a length-prefixed byte string. -/
def decBytes (bytes : List Nat) : Option (List Nat × List Nat) := do
  let (n, r) ← decLE 4 bytes
  if n ≤ r.length then some (r.take n, r.drop n) else none

/-- Boolean field encoding: `flatbuffers.WriteBool` stores byte 1 or 0. -/
def encBool (b : Bool) : List Nat :=
  [if b then 1 else 0]

/-- Decode a boolean field byte. -/
def decBool : List Nat → Option (Bool × List Nat)
  | [] => none
  | b :: rest => some (b == 1, rest)

/-- Decode exactly `n` consecutive items with the given item decoder. -/
def decN {α : Type} (dec : List Nat → Option (α × List Nat)) :
    Nat → List Nat → Option (List α × List Nat)
  | 0, bytes => some ([], bytes)
  | n + 1, bytes => do
      let (x, r) ← dec bytes
      let (xs, r2) ← decN dec n r
      some (x :: xs, r2)

/-- Signed value fits the `w`-byte two's-complement range. -/
abbrev wfInt (w : Nat) (e : Int) : Prop :=
  -((256 : Int) ^ w) ≤ 2 * e ∧ 2 * e < (256 : Int) ^ w

/-- Well-formed byte string: genuine bytes, length within the 32-bit prefix. -/
abbrev wfBytes (s : List Nat) : Prop :=
  s.length < 2 ^ 32 ∧ ∀ b ∈ s, b < 256

/-- A decoded IPC header frame: the four fields `makeHeader` sets
(`Header { event:int8, opcode:int8, partition:int16, metadata:string }`). -/
structure IpcHeader where
  event : Int
  opcode : Int
  partition : Int
  metadata : List Nat
  deriving Repr, DecidableEq

/-- Embedding of `Consumer::makeHeader(event, opcode, partition, meta)`: the
encoded header frame. -/
def makeHeader (event opcode partition : Int) (meta : List Nat) : List Nat :=
  encIntLE 1 event ++ encIntLE 1 opcode ++ encIntLE 2 partition ++ encBytes meta

/-- Embedding of `readHeader` via the generated header accessors (`Event()`,
`Opcode()`, `Partition()`, `Metadata()`). -/
def readHeader (buf : List Nat) : Option IpcHeader := do
  let (event, r1) ← decIntLE 1 buf
  let (opcode, r2) ← decIntLE 1 r1
  let (partition, r3) ← decIntLE 2 r2
  let (metadata, r4) ← decBytes r3
  if r4 = [] then some ⟨event, opcode, partition, metadata⟩ else none

/-- Embedding of `makeDcpPayload(key, value)`. -/
def makeDcpPayload (key value : List Nat) : List Nat :=
  encBytes key ++ encBytes value

/-- Decode a DCP payload frame (the `Key()`/`Value()` accessors of
`readPayload`). -/
def readDcpPayload (buf : List Nat) : Option (List Nat × List Nat) := do
  let (key, r1) ← decBytes buf
  let (value, r2) ← decBytes r1
  if r2 = [] then some (key, value) else none

/-- Embedding of `makeDocTimerPayload(docID, callbackFn)`. -/
def makeDocTimerPayload (docID callbackFn : List Nat) : List Nat :=
  encBytes docID ++ encBytes callbackFn

/-- Decode a doc-timer payload frame (`DocId()`/`CallbackFn()` accessors). -/
def readDocTimerPayload (buf : List Nat) : Option (List Nat × List Nat) := do
  let (docID, r1) ← decBytes buf
  let (callbackFn, r2) ← decBytes r1
  if r2 = [] then some (docID, callbackFn) else none

/-- Embedding of `makeNonDocTimerPayload(data)` (`DocIdsCallbackFns` field). -/
def makeNonDocTimerPayload (data : List Nat) : List Nat :=
  encBytes data

/-- Decode a non-doc-timer payload frame. -/
def readNonDocTimerPayload (buf : List Nat) : Option (List Nat) := do
  let (data, r1) ← decBytes buf
  if r1 = [] then some data else none

/-- Entry sequence of `makeThrMapPayload`: for each thread (in index order)
a `VbsThreadMap` table with `ThreadID = int16(i)` and the partition vector. -/
def makeThrMapEntries (i : Nat) : List (List Nat) → List Nat
  | [] => []
  | parts :: rest =>
      encIntLE 2 (i : Int) ++ encLE 4 parts.length ++
        parts.flatMap (encLE 2) ++ makeThrMapEntries (i + 1) rest

/-- Embedding of `makeThrMapPayload(thrMap, partitionCount)`: the count-prefixed
`ThrMap` vector followed by the `PartitionCount:int16` field. -/
def makeThrMapPayload (thrMap : List (List Nat)) (partitionCount : Int) :
    List Nat :=
  encLE 4 thrMap.length ++ makeThrMapEntries 0 thrMap ++ encIntLE 2 partitionCount

/-- Decode one `VbsThreadMap` entry: thread id and its partition vector. -/
def decThrEntry (bytes : List Nat) : Option ((Int × List Nat) × List Nat) := do
  let (tid, r1) ← decIntLE 2 bytes
  let (cnt, r2) ← decLE 4 r1
  let (parts, r3) ← decN (decLE 2) cnt r2
  some ((tid, parts), r3)

/-- Decode a worker-thread-partition-map payload frame. -/
def readThrMapPayload (buf : List Nat) :
    Option (List (Int × List Nat) × Int) := do
  let (n, r1) ← decLE 4 buf
  let (entries, r2) ← decN decThrEntry n r1
  let (pc, r3) ← decIntLE 2 r2
  if r3 = [] then some (entries, pc) else none

/-- The fields `makeV8InitPayload` sets, in builder order. -/
structure V8InitPayload where
  appName : List Nat
  currHost : List Nat
  eventingDir : List Nat
  currEventingPort : List Nat
  depcfg : List Nat
  kvHostPort : List Nat
  rbacUser : List Nat
  rbacPass : List Nat
  lcbInstCapacity : Int
  executionTimeout : Int
  fuzzOffset : Int
  checkpointInterval : Int
  curlTimeout : Int
  enableRecursiveMutation : Bool
  skipLcbBootstrap : Bool
  deriving Repr, DecidableEq

/-- Embedding of `makeV8InitPayload`: eight strings, four `int32` scalars, the
`int64` curl timeout and the two boolean bytes, in builder order. -/
def makeV8InitPayload (f : V8InitPayload) : List Nat :=
  encBytes f.appName ++ encBytes f.currHost ++ encBytes f.eventingDir ++
    encBytes f.currEventingPort ++ encBytes f.depcfg ++ encBytes f.kvHostPort ++
    encBytes f.rbacUser ++ encBytes f.rbacPass ++
    encIntLE 4 f.lcbInstCapacity ++ encIntLE 4 f.executionTimeout ++
    encIntLE 4 f.fuzzOffset ++ encIntLE 4 f.checkpointInterval ++
    encIntLE 8 f.curlTimeout ++ encBool f.enableRecursiveMutation ++
    encBool f.skipLcbBootstrap

/-- Decode a v8-init payload frame. -/
def readV8InitPayload (buf : List Nat) : Option V8InitPayload := do
  let (appName, r1) ← decBytes buf
  let (currHost, r2) ← decBytes r1
  let (eventingDir, r3) ← decBytes r2
  let (currEventingPort, r4) ← decBytes r3
  let (depcfg, r5) ← decBytes r4
  let (kvHostPort, r6) ← decBytes r5
  let (rbacUser, r7) ← decBytes r6
  let (rbacPass, r8) ← decBytes r7
  let (lcbInstCapacity, r9) ← decIntLE 4 r8
  let (executionTimeout, r10) ← decIntLE 4 r9
  let (fuzzOffset, r11) ← decIntLE 4 r10
  let (checkpointInterval, r12) ← decIntLE 4 r11
  let (curlTimeout, r13) ← decIntLE 8 r12
  let (enableRecursiveMutation, r14) ← decBool r13
  let (skipLcbBootstrap, r15) ← decBool r14
  if r15 = [] then
    some ⟨appName, currHost, eventingDir, currEventingPort, depcfg, kvHostPort,
      rbacUser, rbacPass, lcbInstCapacity, executionTimeout, fuzzOffset,
      checkpointInterval, curlTimeout, enableRecursiveMutation,
      skipLcbBootstrap⟩
  else none

/-- Well-formed v8-init payload: every string field carries genuine bytes with
an in-range length prefix, the four capacities/timeouts fit `int32`, and the
curl timeout fits `int64`. -/
abbrev wfV8Init (f : V8InitPayload) : Prop :=
  wfBytes f.appName ∧ wfBytes f.currHost ∧ wfBytes f.eventingDir ∧
    wfBytes f.currEventingPort ∧ wfBytes f.depcfg ∧ wfBytes f.kvHostPort ∧
    wfBytes f.rbacUser ∧ wfBytes f.rbacPass ∧ wfInt 4 f.lcbInstCapacity ∧
    wfInt 4 f.executionTimeout ∧ wfInt 4 f.fuzzOffset ∧
    wfInt 4 f.checkpointInterval ∧ wfInt 8 f.curlTimeout

/-! ## Vbucket assignment planner (producer/vbucket_node_assignment.go) -/

/-- The per-slot count array both assignment loops build (`vbCountPerNode` at
node level, `vbCountPerWorker` at worker level): `total / parts` everywhere,
then one extra for each of the first `total - parts*(total/parts)` slots. -/
def splitCounts (total parts : Nat) : List Nat :=
  let q := total / parts
  let rem := total - parts * q
  (List.range parts).map (fun i => if i < rem then q + 1 else q)

/-- Hand out chunks of the given sizes from the front of a list, mirroring
the sequential `startVb`/`startVbIndex` cursor loops. -/
def takeChunks {α : Type} : List α → List Nat → List (List α)
  | _, [] => []
  | xs, c :: cs => xs.take c :: takeChunks (xs.drop c) cs

/-- Embedding of `Producer::vbEventingNodeAssign`: the vbucket → eventing-node
map, represented as its association list in ascending vbucket order (the
`startVb` cursor runs 0, 1, 2, …; Go stores the same pairs in a map). -/
def vbEventingNodeAssign (eventingNodeAddrs : List String) (numVbuckets : Nat) :
    List (Nat × String) :=
  ((takeChunks (List.range numVbuckets)
      (splitCounts numVbuckets eventingNodeAddrs.length)).zip
    eventingNodeAddrs).flatMap (fun p => p.1.map (fun vb => (vb, p.2)))

/-- Worker name `fmt.Sprintf("worker_%s_%d", appName, i)`. -/
def workerName (appName : String) (i : Nat) : String :=
  "worker_" ++ appName ++ "_" ++ toString i

/-- Embedding of `Producer::initWorkerVbMap` over the sorted vbucket list this
node handles: the same split algorithm, chunks handed to
`worker_<app>_0, worker_<app>_1, …` in order. -/
def initWorkerVbMap (appName : String) (vbucketsToHandle : List Nat)
    (workerCount : Nat) : List (String × List Nat) :=
  ((List.range workerCount).map (workerName appName)).zip
    (takeChunks vbucketsToHandle
      (splitCounts vbucketsToHandle.length workerCount))

/-- The `vbucketsToHandle` computation of `initWorkerVbMap`: the keys of the
assignment map whose value is this node's address, sorted ascending (the
embedding's association list is already in ascending key order, so the
`sort.Ints` call is the identity here). -/
def vbucketsToHandle (eventingNodeAddrs : List String) (numVbuckets : Nat)
    (addr : String) : List Nat :=
  ((vbEventingNodeAssign eventingNodeAddrs numVbuckets).filter
    (fun p => p.2 == addr)).map Prod.fst

/-- A concrete v8-init payload for concrete evaluations. -/
def v8Init0 : V8InitPayload :=
  { appName := [97]
    currHost := [104]
    eventingDir := [100]
    currEventingPort := [57]
    depcfg := [123]
    kvHostPort := [107]
    rbacUser := [117]
    rbacPass := [112]
    lcbInstCapacity := 5
    executionTimeout := 1
    fuzzOffset := 30
    checkpointInterval := 10000
    curlTimeout := 500
    enableRecursiveMutation := true
    skipLcbBootstrap := false }

/-! ## Theorems for claims C2, C10, C3, C4, C5, C7 -/

/-- C2: when `doVbTakeover` reads a checkpoint blob with `streamStatus`
`running`, it returns success if the blob's node UUID is this node's and the
assigned worker is this consumer; it returns `errVbOwnedByAnotherNode` if the
owner is a different node the membership oracle reports alive; it proceeds to
take over (`updateVbOwnerAndStartDCPStream`) when the owning node is a
different node that is dead per the oracle and the planner assigns the
partition to this node; for `stopped` or `uninitialised` it proceeds to take
over; any other stream status yields `errUnexpectedVbStreamStatus`. -/
theorem doVbTakeover_cases (c : ConsumerIdent) (alive shouldOwn : Bool)
    (b : vbucketKVBlob) :
    (b.dcpStreamStatus = dcpStreamRunning → b.nodeUUID = c.nodeUUID →
      b.assignedWorker = c.consumerName →
      doVbTakeover c alive shouldOwn b = .success)
  ∧ (b.dcpStreamStatus = dcpStreamRunning → b.nodeUUID ≠ c.nodeUUID →
      alive = true →
      doVbTakeover c alive shouldOwn b = .errVbOwnedByAnotherNode)
  ∧ (b.dcpStreamStatus = dcpStreamRunning → b.nodeUUID ≠ c.nodeUUID →
      alive = false → shouldOwn = true →
      doVbTakeover c alive shouldOwn b = .takeover)
  ∧ (b.dcpStreamStatus = dcpStreamStopped ∨
      b.dcpStreamStatus = dcpStreamUninitialised →
      doVbTakeover c alive shouldOwn b = .takeover)
  ∧ (b.dcpStreamStatus ≠ dcpStreamRunning → b.dcpStreamStatus ≠ dcpStreamStopped →
      b.dcpStreamStatus ≠ dcpStreamUninitialised →
      doVbTakeover c alive shouldOwn b = .errUnexpectedVbStreamStatus) := by
  refine ⟨?_, ?_, ?_, ?_, ?_⟩
  · intro h1 h2 h3
    simp [doVbTakeover, doVbTakeoverB, TakeoverBranch.result, h1, h2, h3]
  · intro h1 h2 h3
    simp [doVbTakeover, doVbTakeoverB, TakeoverBranch.result, h1, h2, h3, Ne.symm h2]
  · intro h1 h2 h3 h4
    simp [doVbTakeover, doVbTakeoverB, TakeoverBranch.result, h1, h2, h3, h4, Ne.symm h2]
  · rintro (h | h) <;>
      simp [doVbTakeover, doVbTakeoverB, TakeoverBranch.result, h,
        dcpStreamRunning, dcpStreamStopped, dcpStreamUninitialised]
  · intro h1 h2 h3
    simp [doVbTakeover, doVbTakeoverB, TakeoverBranch.result, h1, h2, h3]

/-- C2 witness: the five behaviours at concrete blobs. -/
theorem doVbTakeover_cases_witness :
    doVbTakeover ⟨"u0", "w0", "h0", "d0"⟩ true true
      ⟨"", "w0", "h1", dcpStreamRunning, "", "u0", "", "", "", "", 5, 3⟩ = .success
  ∧ doVbTakeover ⟨"u0", "w0", "h0", "d0"⟩ true true
      ⟨"", "w1", "h1", dcpStreamRunning, "", "u1", "", "", "", "", 5, 3⟩ =
        .errVbOwnedByAnotherNode
  ∧ doVbTakeover ⟨"u0", "w0", "h0", "d0"⟩ false true
      ⟨"", "w1", "h1", dcpStreamRunning, "", "u1", "", "", "", "", 5, 3⟩ = .takeover
  ∧ doVbTakeover ⟨"u0", "w0", "h0", "d0"⟩ true true
      ⟨"", "w1", "h1", dcpStreamStopped, "", "u1", "", "", "", "", 5, 3⟩ = .takeover
  ∧ doVbTakeover ⟨"u0", "w0", "h0", "d0"⟩ true true
      ⟨"", "w1", "h1", "garbage", "", "u1", "", "", "", "", 5, 3⟩ =
        .errUnexpectedVbStreamStatus := by
  refine ⟨?_, ?_, ?_, ?_, ?_⟩
  · exact (doVbTakeover_cases _ _ _ _).1 (by decide) (by decide) (by decide)
  · exact (doVbTakeover_cases _ _ _ _).2.1 (by decide) (by decide) (by decide)
  · exact (doVbTakeover_cases _ _ _ _).2.2.1 (by decide) (by decide) (by decide) (by decide)
  · exact (doVbTakeover_cases _ _ _ _).2.2.2.1 (Or.inl (by decide))
  · exact (doVbTakeover_cases _ _ _ _).2.2.2.2 (by decide) (by decide) (by decide)

/-- C10: inside `doVbTakeover`'s dead-owner takeover path the guard already
requires the blob's node UUID to differ from this node's, so the inner
`errVbOwnedByAnotherWorker` return (line 297) and the branch re-checking
blob-node-UUID equality before starting the stream (line 309) are unreachable
for every input; a dead owner's partition always reaches
`updateVbOwnerAndStartDCPStream` through the direct return (line 311). -/
theorem doVbTakeover_deadOwner_direct (c : ConsumerIdent) (alive shouldOwn : Bool)
    (b : vbucketKVBlob) :
    doVbTakeoverB c alive shouldOwn b ≠ .ownedByAnotherWorkerInner
  ∧ doVbTakeoverB c alive shouldOwn b ≠ .takeoverAfterRecheck
  ∧ (b.dcpStreamStatus = dcpStreamRunning → c.nodeUUID ≠ b.nodeUUID →
      alive = false → shouldOwn = true →
      doVbTakeoverB c alive shouldOwn b = .takeoverDirect) := by
  refine ⟨?_, ?_, ?_⟩
  · unfold doVbTakeoverB
    repeat' split
    all_goals simp_all
  · unfold doVbTakeoverB
    repeat' split
    all_goals simp_all
  · intro h1 h2 h3 h4
    simp [doVbTakeoverB, h1, h2, h3, h4, Ne.symm h2]

/-- C10 witness: a concrete dead-owner takeover goes through the direct branch. -/
theorem doVbTakeover_deadOwner_direct_witness :
    doVbTakeoverB ⟨"u0", "w0", "h0", "d0"⟩ false true
      ⟨"", "w1", "h1", dcpStreamRunning, "", "u1", "", "", "", "", 5, 3⟩ =
        .takeoverDirect :=
  (doVbTakeover_deadOwner_direct _ _ _ _).2.2 (by decide) (by decide) rfl rfl

/-- C3 counterexample: the claim says the poll loop exits when
`streamStatus ≠ running` (or ownership fully transferred); on a blob whose
stream status is `stopped` while the blob still names this consumer as owner,
the spec condition holds, yet the code keeps polling (the line-163 condition
retries whenever the status is not `running`). -/
theorem giveUpPoll_spec_mismatch :
    specGiveUpExitCond ⟨"u0", "w0", "h0", "d0"⟩
        ⟨"", "w0", "h0", dcpStreamStopped, "", "u0", "", "", "", "", 0, 0⟩ = true
  ∧ giveUpPollStep false ⟨"u0", "w0", "h0", "d0"⟩
        ⟨"", "w0", "h0", dcpStreamStopped, "", "u0", "", "", "", "", 0, 0⟩ =
      .retryPoll := by
  constructor <;> decide

/-- C3 (amended): the give-up poll loop honours the cancellation signal on
every poll, and (absent cancellation) exits for a partition exactly when the
blob's stream status IS `running` and ownership has at least partly moved
away — the blob's node UUID differs from this node's or its assigned worker
differs from this consumer's name; while the status is not `running`, or both
identity fields still name this consumer, it keeps polling. -/
theorem giveUpPollStep_finished_iff (s : Bool) (c : ConsumerIdent)
    (b : vbucketKVBlob) :
    (giveUpPollStep s c b = .finished ↔
      s = false ∧ b.dcpStreamStatus = dcpStreamRunning ∧
        (b.nodeUUID ≠ c.nodeUUID ∨ b.assignedWorker ≠ c.consumerName))
  ∧ giveUpPollStep true c b = .cancelled := by
  constructor
  · cases s with
    | false => simp [giveUpPollStep]; tauto
    | true => simp [giveUpPollStep]
  · simp [giveUpPollStep]

/-- C4: the DCP stream start sequence requested at takeover is the minimum of
the blob's `LastSeqNoProcessed` and `LastDocTimerFeedbackSeqNo`. -/
theorem updateVbOwner_streamStartSeq (c : ConsumerIdent) (reqOk dialOk : Bool)
    (st : List Nat) (vb : Nat) (b : vbucketKVBlob) (h : vb ∉ st) :
    CEffect.dcpStreamReq vb (min b.lastSeqNoProcessed b.lastDocTimerFeedbackSeqNo)
      ∈ (updateVbOwnerAndStartDCPStream c reqOk dialOk st vb b).effects := by
  have hmin : (if b.lastDocTimerFeedbackSeqNo < b.lastSeqNoProcessed then
      b.lastDocTimerFeedbackSeqNo else b.lastSeqNoProcessed) =
      min b.lastSeqNoProcessed b.lastDocTimerFeedbackSeqNo := by
    split <;> omega
  unfold updateVbOwnerAndStartDCPStream
  rw [if_neg h]
  simp only [hmin]
  cases reqOk <;> cases dialOk <;> by_cases hu : c.nodeUUID = b.previousNodeUUID <;>
    simp [hu]

/-- C4 witness: at a concrete blob the requested start sequence is the minimum
of the two checkpoint sequence numbers. -/
theorem updateVbOwner_streamStartSeq_witness :
    CEffect.dcpStreamReq 7 (min 5 3) ∈
      (updateVbOwnerAndStartDCPStream ⟨"u0", "w0", "h0", "d0"⟩ true true [] 7
        ⟨"", "", "", "", "", "", "", "", "", "", 5, 3⟩).effects :=
  updateVbOwner_streamStartSeq _ _ _ _ _ _ (by decide)

/-- C5: stream requests are idempotent per partition — if the partition is
already in `vbStreamRequested` the call returns success immediately with
unchanged state and no side effects; when it is absent the insert succeeds
(and is rolled back only if the stream request itself fails). -/
theorem updateVbOwner_idempotent (c : ConsumerIdent) (reqOk dialOk : Bool)
    (st : List Nat) (vb : Nat) (b : vbucketKVBlob) :
    (vb ∈ st → updateVbOwnerAndStartDCPStream c reqOk dialOk st vb b =
      { vbStreamRequested := st, effects := [], result := .ok })
  ∧ (vb ∉ st → (updateVbOwnerAndStartDCPStream c reqOk dialOk st vb b).vbStreamRequested
      = if reqOk then vb :: st else st) := by
  constructor
  · intro h
    simp [updateVbOwnerAndStartDCPStream, h]
  · intro h
    unfold updateVbOwnerAndStartDCPStream
    rw [if_neg h]
    cases reqOk <;> by_cases hd : dialOk = false <;>
      by_cases hu : c.nodeUUID = b.previousNodeUUID <;>
        simp [hd, hu, List.erase_cons_head]

/-- C5 witness: a duplicate call for partition 7 is a no-op; a fresh call
records partition 7 in the guard set. -/
theorem updateVbOwner_idempotent_witness :
    updateVbOwnerAndStartDCPStream ⟨"u0", "w0", "h0", "d0"⟩ true true [7] 7
        ⟨"", "", "", "", "", "", "", "", "", "", 5, 3⟩ =
      { vbStreamRequested := [7], effects := [], result := .ok }
  ∧ (updateVbOwnerAndStartDCPStream ⟨"u0", "w0", "h0", "d0"⟩ true true [] 7
        ⟨"", "", "", "", "", "", "", "", "", "", 5, 3⟩).vbStreamRequested = [7] := by
  constructor
  · exact (updateVbOwner_idempotent _ _ _ _ _ _).1 (by decide)
  · exact (updateVbOwner_idempotent _ _ _ _ _ _).2 (by decide)

/-- C7: the give-up checkpoint sets `streamStatus` to stopped, clears the
owner fields (assigned worker, current owner, node UUID, doc-timer worker),
sets the previous-owner fields to this consumer's identity and directory,
refreshes the checkpoint time, and leaves every other blob field — in
particular `lastSeqProcessed` and `lastTimerFeedbackSeq` — unchanged. -/
theorem updateCheckpoint_frame (c : ConsumerIdent) (now : String)
    (b : vbucketKVBlob) :
    updateCheckpoint c now b =
      { assignedDocIDTimerWorker := ""
        assignedWorker := ""
        currentVBOwner := ""
        dcpStreamStatus := dcpStreamStopped
        lastCheckpointTime := now
        nodeUUID := ""
        previousAssignedWorker := c.consumerName
        previousEventingDir := c.eventingDir
        previousNodeUUID := c.nodeUUID
        previousVBOwner := c.hostPortAddr
        lastSeqNoProcessed := b.lastSeqNoProcessed
        lastDocTimerFeedbackSeqNo := b.lastDocTimerFeedbackSeqNo } := rfl

/-- C8 counterexample: two descriptors that differ only in the reserved field
`reserved1` parse to different `AppConfig`s — `parseDepcfg` copies the slot
formerly named `id` into `AppConfig.ID`, so the reserved fields are not all
ignored. -/
theorem parseDepcfg_reserved1_not_ignored :
    (parseDepcfg (fun s => s) "t" "dir" "app1" { cfg0 with reserved1 := 1 }
        [("rbacuser", SettingVal.s "u"), ("rbacpass", SettingVal.s "p"),
         ("log_level", SettingVal.s "INFO")]).toOption.map Producer.app
  ≠ (parseDepcfg (fun s => s) "t" "dir" "app1" cfg0
        [("rbacuser", SettingVal.s "u"), ("rbacpass", SettingVal.s "p"),
         ("log_level", SettingVal.s "INFO")]).toOption.map Producer.app := by
  decide

/-- C8 (amended): parsing tolerates the reserved descriptor fields, ignores
`reserved2` and `reserved3` entirely, and uses `reserved1` (the slot formerly
named `id`) only as the value of `AppConfig.ID`: every other output field is
independent of all three reserved fields. -/
theorem parseDepcfg_reserved_dependence (hash : String → String)
    (now eventingDir appName : String) (config : Config) (settings : Settings)
    (r1 : Nat) (r2 r3 : Bool) :
    parseDepcfg hash now eventingDir appName
        { config with reserved2 := r2, reserved3 := r3 } settings
      = parseDepcfg hash now eventingDir appName config settings
  ∧ parseDepcfg hash now eventingDir appName
        { config with reserved1 := r1 } settings
      = (parseDepcfg hash now eventingDir appName config settings).map
          (fun p => { p with app := { p.app with id := r1 } }) := by
  constructor
  · rfl
  · unfold parseDepcfg
    cases parseSettingsPart eventingDir appName settings <;> rfl

/-- C9: with `rbacuser` and `rbacpass` supplied but `log_level` absent,
loading fails — line 220 re-reads `settings["log_level"]` with a bare
`.(string)` assertion, which panics on the nil interface even though the
earlier lookup defaulted `p.logLevel` to INFO (first conjunct, the code bug).
A missing `rbacuser` or `rbacpass` fails with the documented errors (second
and third conjuncts), and the other recognized keys do default as documented
once `log_level` is present (fourth conjunct). -/
theorem parseDepcfg_settings_loading :
    parseDepcfg (fun s => s) "t" "dir" "app1" cfg0
        [("rbacuser", SettingVal.s "u"), ("rbacpass", SettingVal.s "p")]
      = Except.error "panic: interface conversion: log_level is not string"
  ∧ parseDepcfg (fun s => s) "t" "dir" "app1" cfg0
        [("rbacpass", SettingVal.s "p"), ("log_level", SettingVal.s "INFO")]
      = Except.error "rbac username missing"
  ∧ parseDepcfg (fun s => s) "t" "dir" "app1" cfg0
        [("rbacuser", SettingVal.s "u"), ("log_level", SettingVal.s "INFO")]
      = Except.error "rbac password missing"
  ∧ (parseDepcfg (fun s => s) "t" "dir" "app1" cfg0
        [("rbacuser", SettingVal.s "u"), ("rbacpass", SettingVal.s "p"),
         ("log_level", SettingVal.s "INFO")]).toOption.map
          (fun p => (p.cfg.workerCount, p.cfg.timerWorkerPoolSize,
            p.cfg.lcbInstCapacity, p.cfg.socketWriteBatchSize,
            p.cfg.skipTimerThreshold, p.cfg.logLevel,
            p.cfg.enableRecursiveMutation, p.cfg.cleanupTimers,
            p.cfg.curlTimeout, p.cfg.workerQueueCap, p.cfg.appLogMaxSize,
            p.cfg.appLogMaxFiles))
      = some (3, 3, 5, 100, 86400, "INFO", false, false, 500, 1000000,
          10485760, 10) := by
  refine ⟨rfl, rfl, rfl, rfl⟩

/-! ### Codec round-trip lemmas -/

theorem decLE_encLE (w n : Nat) (rest : List Nat) (h : n < 256 ^ w) :
    decLE w (encLE w n ++ rest) = some (n, rest) := by
  induction w generalizing n rest with
  | zero =>
      simp only [pow_zero, Nat.lt_one_iff] at h
      subst h
      rfl
  | succ w ih =>
      have hdiv : n / 256 < 256 ^ w := by
        rw [Nat.div_lt_iff_lt_mul (by norm_num)]
        calc n < 256 ^ (w + 1) := h
          _ = 256 ^ w * 256 := by ring
      simp only [encLE, decLE, List.cons_append, List.append_eq]
      rw [ih (n / 256) rest hdiv]
      have hre : n % 256 + 256 * (n / 256) = n := by omega
      simp [hre]

theorem signedFit (Mn : Nat) (e : Int) (hM : 0 < Mn)
    (h1 : -((Mn : Nat) : Int) ≤ 2 * e) (h2 : 2 * e < ((Mn : Nat) : Int)) :
    (if 2 * (e % ((Mn : Nat) : Int)).toNat < Mn then
      ((e % ((Mn : Nat) : Int)).toNat : Int)
    else ((e % ((Mn : Nat) : Int)).toNat : Int) - ((Mn : Nat) : Int)) = e := by
  have hMpos : (0 : Int) < (Mn : Int) := by exact_mod_cast hM
  have hnn : 0 ≤ e % (Mn : Int) := Int.emod_nonneg e (ne_of_gt hMpos)
  have hlt : e % (Mn : Int) < (Mn : Int) := Int.emod_lt_of_pos e hMpos
  have hval : e % (Mn : Int) = e ∨ e % (Mn : Int) = e + (Mn : Int) := by
    rcases le_or_lt 0 e with he | he
    · left
      exact Int.emod_eq_of_lt he (by omega)
    · right
      have h4 : (e + (Mn : Int)) % (Mn : Int) = e % (Mn : Int) := by
        have h5 := Int.add_mul_emod_self_left (a := e) (b := (Mn : Int)) (c := 1)
        rw [mul_one] at h5
        exact h5
      rw [← h4]
      exact Int.emod_eq_of_lt (by omega) (by omega)
  generalize hk : e % (Mn : Int) = k at hnn hlt hval
  rcases hval with hv | hv <;> subst hv <;> split <;> omega

theorem decIntLE_encIntLE (w : Nat) (e : Int) (rest : List Nat)
    (h1 : -((256 : Int) ^ w) ≤ 2 * e) (h2 : 2 * e < (256 : Int) ^ w) :
    decIntLE w (encIntLE w e ++ rest) = some (e, rest) := by
  have hcast : ((256 ^ w : Nat) : Int) = (256 : Int) ^ w := by push_cast; ring
  have hM : 0 < 256 ^ w := pow_pos (by norm_num) w
  rw [← hcast] at h1 h2
  have hnn : 0 ≤ e % ((256 ^ w : Nat) : Int) :=
    Int.emod_nonneg e (by exact_mod_cast ne_of_gt hM)
  have hlt : e % ((256 ^ w : Nat) : Int) < ((256 ^ w : Nat) : Int) :=
    Int.emod_lt_of_pos e (by exact_mod_cast hM)
  have hn : (e % ((256 ^ w : Nat) : Int)).toNat < 256 ^ w := by
    generalize hk : e % ((256 ^ w : Nat) : Int) = k at hnn hlt
    omega
  unfold decIntLE encIntLE
  rw [← hcast, decLE_encLE w _ rest hn]
  have hfit := signedFit (256 ^ w) e hM h1 h2
  simp only [Option.map_some']
  rw [hfit]

theorem decBytes_encBytes (s rest : List Nat) (h : s.length < 2 ^ 32) :
    decBytes (encBytes s ++ rest) = some (s, rest) := by
  unfold decBytes encBytes
  rw [List.append_assoc, decLE_encLE 4 s.length (s ++ rest) (by norm_num at h ⊢; omega)]
  simp [List.length_append, List.take_left, List.drop_left]

theorem decBool_encBool (b : Bool) (rest : List Nat) :
    decBool (encBool b ++ rest) = some (b, rest) := by
  cases b <;> rfl

theorem decN_u16 (xs rest : List Nat) (h : ∀ x ∈ xs, x < 65536) :
    decN (decLE 2) xs.length (xs.flatMap (encLE 2) ++ rest) = some (xs, rest) := by
  induction xs generalizing rest with
  | nil => rfl
  | cons x xs ih =>
      have hx : x < 256 ^ 2 := by
        have := h x (List.mem_cons_self x xs)
        norm_num
        omega
      simp only [List.flatMap_cons, List.length_cons, List.append_assoc, decN]
      rw [decLE_encLE 2 x _ hx]
      simp only [Bind.bind, Option.bind]
      rw [ih rest (fun y hy => h y (List.mem_cons_of_mem x hy))]

theorem decThrEntries_make (tm : List (List Nat)) (i : Nat) (rest : List Nat)
    (hwf : ∀ parts ∈ tm, parts.length < 2 ^ 32 ∧ ∀ x ∈ parts, x < 65536)
    (hidx : 2 * (i + tm.length) ≤ 65536) :
    decN decThrEntry tm.length (makeThrMapEntries i tm ++ rest)
      = some ((tm.enumFrom i).map (fun p => ((p.1 : Int), p.2)), rest) := by
  induction tm generalizing i rest with
  | nil => rfl
  | cons parts tm ih =>
      have htid1 : -((256 : Int) ^ 2) ≤ 2 * ((i : Nat) : Int) := by
        norm_num
        omega
      have htid2 : 2 * ((i : Nat) : Int) < (256 : Int) ^ 2 := by
        simp only [List.length_cons] at hidx
        norm_num
        omega
      have hplen : parts.length < 256 ^ 4 := by
        have := (hwf parts (List.mem_cons_self parts tm)).1
        norm_num at this ⊢
        omega
      simp only [List.length_cons, makeThrMapEntries, List.append_assoc, decN,
        decThrEntry]
      rw [decIntLE_encIntLE 2 ((i : Nat) : Int) _ htid1 htid2]
      simp only [Bind.bind, Option.bind]
      rw [decLE_encLE 4 parts.length _ hplen]
      simp only [Bind.bind, Option.bind]
      rw [decN_u16 parts _ (hwf parts (List.mem_cons_self parts tm)).2]
      simp only [Bind.bind, Option.bind]
      rw [ih (i + 1) rest (fun p hp => hwf p (List.mem_cons_of_mem parts hp))
        (by simp only [List.length_cons] at hidx; omega)]
      simp [List.enumFrom]

theorem readHeader_makeHeader (event opcode partition : Int) (meta : List Nat)
    (h1 : wfInt 1 event) (h2 : wfInt 1 opcode) (h3 : wfInt 2 partition)
    (h4 : wfBytes meta) :
    readHeader (makeHeader event opcode partition meta)
      = some ⟨event, opcode, partition, meta⟩ := by
  have hmeta := decBytes_encBytes meta [] h4.1
  rw [List.append_nil] at hmeta
  unfold readHeader makeHeader
  simp only [List.append_assoc]
  rw [decIntLE_encIntLE 1 event _ h1.1 h1.2]
  simp only [Bind.bind, Option.bind]
  rw [decIntLE_encIntLE 1 opcode _ h2.1 h2.2]
  simp only [Bind.bind, Option.bind]
  rw [decIntLE_encIntLE 2 partition _ h3.1 h3.2]
  simp only [Bind.bind, Option.bind]
  rw [hmeta]
  rfl

theorem readDcpPayload_make (key value : List Nat)
    (h1 : wfBytes key) (h2 : wfBytes value) :
    readDcpPayload (makeDcpPayload key value) = some (key, value) := by
  have hv := decBytes_encBytes value [] h2.1
  rw [List.append_nil] at hv
  unfold readDcpPayload makeDcpPayload
  simp only [List.append_assoc]
  rw [decBytes_encBytes key _ h1.1]
  simp only [Bind.bind, Option.bind]
  rw [hv]
  rfl

theorem readDocTimerPayload_make (docID callbackFn : List Nat)
    (h1 : wfBytes docID) (h2 : wfBytes callbackFn) :
    readDocTimerPayload (makeDocTimerPayload docID callbackFn)
      = some (docID, callbackFn) := by
  have hv := decBytes_encBytes callbackFn [] h2.1
  rw [List.append_nil] at hv
  unfold readDocTimerPayload makeDocTimerPayload
  simp only [List.append_assoc]
  rw [decBytes_encBytes docID _ h1.1]
  simp only [Bind.bind, Option.bind]
  rw [hv]
  rfl

theorem readNonDocTimerPayload_make (data : List Nat) (h : wfBytes data) :
    readNonDocTimerPayload (makeNonDocTimerPayload data) = some data := by
  have hv := decBytes_encBytes data [] h.1
  rw [List.append_nil] at hv
  unfold readNonDocTimerPayload makeNonDocTimerPayload
  rw [hv]
  simp only [Bind.bind, Option.bind]
  rfl

theorem readThrMapPayload_make (thrMap : List (List Nat)) (partitionCount : Int)
    (hwf : ∀ parts ∈ thrMap, parts.length < 2 ^ 32 ∧ ∀ x ∈ parts, x < 65536)
    (hn : 2 * thrMap.length ≤ 65536) (hpc : wfInt 2 partitionCount) :
    readThrMapPayload (makeThrMapPayload thrMap partitionCount)
      = some (thrMap.enum.map (fun p => ((p.1 : Int), p.2)), partitionCount) := by
  have hpcr := decIntLE_encIntLE 2 partitionCount [] hpc.1 hpc.2
  rw [List.append_nil] at hpcr
  have hlen : thrMap.length < 256 ^ 4 := by norm_num; omega
  unfold readThrMapPayload makeThrMapPayload
  simp only [List.append_assoc]
  rw [decLE_encLE 4 thrMap.length _ hlen]
  simp only [Bind.bind, Option.bind]
  rw [decThrEntries_make thrMap 0 _ hwf (by omega)]
  simp only [Bind.bind, Option.bind]
  rw [hpcr]
  simp [List.enum]

theorem readV8InitPayload_make (f : V8InitPayload) (h : wfV8Init f) :
    readV8InitPayload (makeV8InitPayload f) = some f := by
  obtain ⟨w1, w2, w3, w4, w5, w6, w7, w8, w9, w10, w11, w12, w13⟩ := h
  have hlast := decBool_encBool f.skipLcbBootstrap []
  rw [List.append_nil] at hlast
  unfold readV8InitPayload makeV8InitPayload
  simp only [List.append_assoc]
  rw [decBytes_encBytes _ _ w1.1]
  simp only [Bind.bind, Option.bind]
  rw [decBytes_encBytes _ _ w2.1]
  simp only [Bind.bind, Option.bind]
  rw [decBytes_encBytes _ _ w3.1]
  simp only [Bind.bind, Option.bind]
  rw [decBytes_encBytes _ _ w4.1]
  simp only [Bind.bind, Option.bind]
  rw [decBytes_encBytes _ _ w5.1]
  simp only [Bind.bind, Option.bind]
  rw [decBytes_encBytes _ _ w6.1]
  simp only [Bind.bind, Option.bind]
  rw [decBytes_encBytes _ _ w7.1]
  simp only [Bind.bind, Option.bind]
  rw [decBytes_encBytes _ _ w8.1]
  simp only [Bind.bind, Option.bind]
  rw [decIntLE_encIntLE 4 _ _ w9.1 w9.2]
  simp only [Bind.bind, Option.bind]
  rw [decIntLE_encIntLE 4 _ _ w10.1 w10.2]
  simp only [Bind.bind, Option.bind]
  rw [decIntLE_encIntLE 4 _ _ w11.1 w11.2]
  simp only [Bind.bind, Option.bind]
  rw [decIntLE_encIntLE 4 _ _ w12.1 w12.2]
  simp only [Bind.bind, Option.bind]
  rw [decIntLE_encIntLE 8 _ _ w13.1 w13.2]
  simp only [Bind.bind, Option.bind]
  rw [decBool_encBool f.enableRecursiveMutation _]
  simp only [Bind.bind, Option.bind]
  rw [hlast]
  rfl

/-- C6: IPC frames round-trip — decoding the header frame produced by
`makeHeader` yields back the same event, opcode, partition and metadata, and
each payload variant (dcp key/value, doc timer, non-doc timer, thread map,
v8 init) decodes to the original field values:
`decode(encode(frame)) = frame` for every event/opcode/payload combination. -/
theorem ipcRoundTrip :
    (∀ (event opcode partition : Int) (meta : List Nat),
      wfInt 1 event → wfInt 1 opcode → wfInt 2 partition → wfBytes meta →
      readHeader (makeHeader event opcode partition meta)
        = some ⟨event, opcode, partition, meta⟩)
  ∧ (∀ key value : List Nat, wfBytes key → wfBytes value →
      readDcpPayload (makeDcpPayload key value) = some (key, value))
  ∧ (∀ docID callbackFn : List Nat, wfBytes docID → wfBytes callbackFn →
      readDocTimerPayload (makeDocTimerPayload docID callbackFn)
        = some (docID, callbackFn))
  ∧ (∀ data : List Nat, wfBytes data →
      readNonDocTimerPayload (makeNonDocTimerPayload data) = some data)
  ∧ (∀ (thrMap : List (List Nat)) (partitionCount : Int),
      (∀ parts ∈ thrMap, parts.length < 2 ^ 32 ∧ ∀ x ∈ parts, x < 65536) →
      2 * thrMap.length ≤ 65536 → wfInt 2 partitionCount →
      readThrMapPayload (makeThrMapPayload thrMap partitionCount)
        = some (thrMap.enum.map (fun p => ((p.1 : Int), p.2)), partitionCount))
  ∧ (∀ f : V8InitPayload, wfV8Init f →
      readV8InitPayload (makeV8InitPayload f) = some f) :=
  ⟨readHeader_makeHeader, readDcpPayload_make, readDocTimerPayload_make,
    readNonDocTimerPayload_make, readThrMapPayload_make, readV8InitPayload_make⟩

/-- C6 witness: each frame kind round-trips at a concrete instance (a
dcpMutation header for partition 5, small payloads, and `v8Init0`). -/
theorem ipcRoundTrip_witness :
    readHeader (makeHeader 2 2 5 [109, 101]) = some ⟨2, 2, 5, [109, 101]⟩
  ∧ readDcpPayload (makeDcpPayload [107] [118]) = some ([107], [118])
  ∧ readDocTimerPayload (makeDocTimerPayload [100] [99]) = some ([100], [99])
  ∧ readNonDocTimerPayload (makeNonDocTimerPayload [110]) = some [110]
  ∧ readThrMapPayload (makeThrMapPayload [[0, 1], [2]] 3)
      = some (([[0, 1], [2]] : List (List Nat)).enum.map
          (fun p => ((p.1 : Int), p.2)), 3)
  ∧ readV8InitPayload (makeV8InitPayload v8Init0) = some v8Init0 := by
  refine ⟨?_, ?_, ?_, ?_, ?_, ?_⟩
  · exact ipcRoundTrip.1 2 2 5 [109, 101] (by decide) (by decide) (by decide)
      (by decide)
  · exact ipcRoundTrip.2.1 [107] [118] (by decide) (by decide)
  · exact ipcRoundTrip.2.2.1 [100] [99] (by decide) (by decide)
  · exact ipcRoundTrip.2.2.2.1 [110] (by decide)
  · exact ipcRoundTrip.2.2.2.2.1 [[0, 1], [2]] 3 (by decide) (by decide)
      (by decide)
  · exact ipcRoundTrip.2.2.2.2.2 v8Init0 (by decide)

/-! ### Assignment planner lemmas -/

theorem sum_range_ite (w r q : Nat) :
    ((List.range w).map (fun i => if i < r then q + 1 else q)).sum
      = w * q + min r w := by
  induction w with
  | zero => simp
  | succ w ih =>
      rw [List.range_succ, List.map_append, List.sum_append, ih]
      simp only [List.map_cons, List.map_nil, List.sum_cons, List.sum_nil]
      have hq : (w + 1) * q = w * q + q := by ring
      split <;> omega

theorem splitCounts_rem (t p : Nat) : t - p * (t / p) = t % p := by
  have := Nat.div_add_mod t p
  omega

theorem splitCounts_eq (t p : Nat) :
    splitCounts t p
      = (List.range p).map (fun i => if i < t % p then t / p + 1 else t / p) := by
  simp only [splitCounts, splitCounts_rem]

theorem splitCounts_length (t p : Nat) : (splitCounts t p).length = p := by
  simp [splitCounts]

theorem splitCounts_sum (t p : Nat) (hp : 0 < p) : (splitCounts t p).sum = t := by
  rw [splitCounts_eq, sum_range_ite]
  have h1 := Nat.div_add_mod t p
  have h2 : t % p < p := Nat.mod_lt t hp
  omega

theorem splitCounts_getD (t p i : Nat) (hi : i < p) :
    (splitCounts t p).getD i 0 = t / p + if i < t % p then 1 else 0 := by
  rw [splitCounts_eq]
  have hr : i < (List.range p).length := by simpa using hi
  rw [List.getD, List.get?_eq_getElem?, List.getElem?_map, List.getElem?_range hi]
  simp only [Option.map_some', Option.getD_some]
  split <;> omega

theorem splitCounts_take_sum (t p i : Nat) (hi : i ≤ p) :
    ((splitCounts t p).take i).sum = i * (t / p) + min i (t % p) := by
  rw [splitCounts_eq, ← List.map_take, List.take_range]
  have hm : min i p = i := by omega
  rw [hm, sum_range_ite]
  omega

theorem takeChunks_length {α : Type} (xs : List α) (counts : List Nat) :
    (takeChunks xs counts).length = counts.length := by
  induction counts generalizing xs with
  | nil => rfl
  | cons c cs ih => simp [takeChunks, ih]

theorem takeChunks_flatten {α : Type} (xs : List α) (counts : List Nat) :
    (takeChunks xs counts).flatten = xs.take counts.sum := by
  induction counts generalizing xs with
  | nil => simp [takeChunks]
  | cons c cs ih =>
      simp only [takeChunks, List.flatten_cons, ih, List.sum_cons]
      rw [List.take_add]

theorem takeChunks_flatten_all {α : Type} (xs : List α) (counts : List Nat)
    (h : counts.sum = xs.length) : (takeChunks xs counts).flatten = xs := by
  rw [takeChunks_flatten, h, List.take_length]

theorem range'_split (s L c : Nat) (hc : c ≤ L) :
    List.range' s L = List.range' s c ++ List.range' (s + c) (L - c) := by
  have h := List.range'_append s c (L - c) 1
  rw [one_mul] at h
  have hL : L - c + c = L := by omega
  rw [hL] at h
  exact h.symm

theorem takeChunks_range'_getD (counts : List Nat) (s L i : Nat)
    (hsum : counts.sum ≤ L) (hi : i < counts.length) :
    (takeChunks (List.range' s L) counts).getD i []
      = List.range' (s + (counts.take i).sum) (counts.getD i 0) := by
  induction counts generalizing s L i with
  | nil => simp at hi
  | cons c cs ih =>
      have hc : c ≤ L := by simp only [List.sum_cons] at hsum; omega
      have hlen : (List.range' s c).length = c := List.length_range' s 1 c
      cases i with
      | zero =>
          simp only [takeChunks, List.getD_cons_zero, List.take_zero,
            List.sum_nil, Nat.add_zero, List.getD_cons_zero]
          rw [range'_split s L c hc, List.take_left' hlen]
      | succ i =>
          simp only [takeChunks, List.getD_cons_succ, List.take_succ_cons,
            List.sum_cons]
          rw [range'_split s L c hc, List.drop_left' hlen]
          rw [ih (s + c) (L - c) i
            (by simp only [List.sum_cons] at hsum; omega)
            (by simpa using hi)]
          congr 1
          omega

theorem takeChunks_getD_length {α : Type} (xs : List α) (counts : List Nat)
    (j : Nat) (hsum : counts.sum ≤ xs.length) (hj : j < counts.length) :
    ((takeChunks xs counts).getD j []).length = counts.getD j 0 := by
  induction counts generalizing xs j with
  | nil => simp at hj
  | cons c cs ih =>
      cases j with
      | zero =>
          simp only [takeChunks, List.getD_cons_zero, List.length_take]
          simp only [List.sum_cons] at hsum
          omega
      | succ j =>
          simp only [takeChunks, List.getD_cons_succ]
          refine ih (xs.drop c) j ?_ (by simpa using hj)
          rw [List.length_drop]
          simp only [List.sum_cons] at hsum
          omega

theorem map_fst_flatMap_zip {α : Type} (cs : List (List α)) (ts : List String)
    (hlen : cs.length = ts.length) :
    ((cs.zip ts).flatMap (fun p => p.1.map (fun v => (v, p.2)))).map Prod.fst
      = cs.flatten := by
  induction cs generalizing ts with
  | nil => simp
  | cons c cs ih =>
      cases ts with
      | nil => simp at hlen
      | cons t ts =>
          simp only [List.zip_cons_cons, List.flatMap_cons, List.map_append,
            List.flatten_cons]
          rw [ih ts (by simpa using hlen)]
          congr 1
          rw [List.map_map]
          have hcomp : (Prod.fst ∘ fun v : α => (v, t)) = id := by
            funext v
            rfl
          rw [hcomp, List.map_id]

theorem filter_flatMap_zip (cs : List (List Nat)) (ts : List String)
    (hlen : cs.length = ts.length) (hd : ts.Nodup) (i : Nat)
    (hi : i < ts.length) :
    (((cs.zip ts).flatMap (fun p => p.1.map (fun v => (v, p.2)))).filter
        (fun q => q.2 == ts.get ⟨i, hi⟩)).map Prod.fst
      = cs.getD i [] := by
  induction cs generalizing ts i with
  | nil =>
      rw [List.length_nil] at hlen
      exact absurd hi (by omega)
  | cons c cs ih =>
      cases ts with
      | nil => simp at hi
      | cons t ts =>
          have hlen2 : cs.length = ts.length := by simpa using hlen
          have hnotin : t ∉ ts := (List.nodup_cons.mp hd).1
          have hnd : ts.Nodup := (List.nodup_cons.mp hd).2
          cases i with
          | zero =>
              have htget : (t :: ts).get ⟨0, hi⟩ = t := rfl
              simp only [List.zip_cons_cons, List.flatMap_cons,
                List.filter_append, htget, List.getD_cons_zero]
              have hhead : (c.map (fun v => (v, t))).filter
                  (fun q => q.2 == t) = c.map (fun v => (v, t)) := by
                rw [List.filter_eq_self]
                intro a ha
                rcases List.mem_map.mp ha with ⟨v, _, rfl⟩
                exact beq_self_eq_true t
              have htail : ((cs.zip ts).flatMap
                  (fun p => p.1.map (fun v => (v, p.2)))).filter
                  (fun q => q.2 == t) = [] := by
                rw [List.filter_eq_nil_iff]
                intro q hq
                rcases List.mem_flatMap.mp hq with ⟨p, hp, hq2⟩
                rcases List.mem_map.mp hq2 with ⟨v, _, rfl⟩
                have hp2 : p.2 ∈ ts := by
                  obtain ⟨p1, p2⟩ := p
                  exact (List.of_mem_zip hp).2
                intro hbeq
                have h6 : (p.2 == t) = true := hbeq
                exact hnotin (eq_of_beq h6 ▸ hp2)
              rw [hhead, htail, List.append_nil, List.map_map]
              have hcomp2 : (Prod.fst ∘ fun v : Nat => (v, t)) = id := by
                funext v
                rfl
              rw [hcomp2, List.map_id]
          | succ i =>
              have hi2 : i < ts.length := by simpa using hi
              have htget : (t :: ts).get ⟨i + 1, hi⟩ = ts.get ⟨i, hi2⟩ := rfl
              have htne : t ≠ ts.get ⟨i, hi2⟩ := by
                intro hEq
                exact hnotin (hEq ▸ List.get_mem ts i hi2)
              simp only [List.zip_cons_cons, List.flatMap_cons,
                List.filter_append, htget, List.getD_cons_succ]
              have hhead : (c.map (fun v => (v, t))).filter
                  (fun q => q.2 == ts.get ⟨i, hi2⟩) = [] := by
                rw [List.filter_eq_nil_iff]
                intro q hq
                rcases List.mem_map.mp hq with ⟨v, _, rfl⟩
                intro hbeq
                have h6 : (t == ts.get ⟨i, hi2⟩) = true := hbeq
                exact htne (eq_of_beq h6)
              rw [hhead, List.nil_append]
              exact ih ts hlen2 hnd i hi2

theorem map_getD_range {α : Type} (l : List α) (d : α) :
    (List.range l.length).map (fun i => l.getD i d) = l := by
  apply List.ext_getElem
  · simp
  · intro n h1 h2
    rw [List.getElem_map, List.getElem_range, List.getD_eq_getElem l d h2]

theorem getD_zip_snd {α β : Type} (l1 : List α) (l2 : List β) (j : Nat)
    (d1 : α) (d2 : β) (h1 : j < l1.length) (h2 : j < l2.length) :
    ((l1.zip l2).getD j (d1, d2)).2 = l2.getD j d2 := by
  have hz : j < (l1.zip l2).length := by
    rw [List.length_zip]
    omega
  rw [List.getD_eq_getElem _ _ hz, List.getElem_zip,
    List.getD_eq_getElem l2 d2 h2]

theorem vbEventingNodeAssign_keys (addrs : List String) (numVbuckets : Nat)
    (hm : addrs ≠ []) :
    (vbEventingNodeAssign addrs numVbuckets).map Prod.fst
      = List.range numVbuckets := by
  have hm2 : 0 < addrs.length := List.length_pos.mpr hm
  unfold vbEventingNodeAssign
  rw [map_fst_flatMap_zip _ _ (by rw [takeChunks_length, splitCounts_length])]
  exact takeChunks_flatten_all _ _
    (by rw [splitCounts_sum numVbuckets addrs.length hm2, List.length_range])

theorem vbucketsToHandle_eq (addrs : List String) (numVbuckets : Nat) (i : Nat)
    (hd : addrs.Nodup) (hi : i < addrs.length) :
    vbucketsToHandle addrs numVbuckets (addrs.get ⟨i, hi⟩)
      = List.range'
          (i * (numVbuckets / addrs.length) + min i (numVbuckets % addrs.length))
          (numVbuckets / addrs.length +
            if i < numVbuckets % addrs.length then 1 else 0) := by
  have hm2 : 0 < addrs.length := by omega
  unfold vbucketsToHandle vbEventingNodeAssign
  rw [filter_flatMap_zip _ _ (by rw [takeChunks_length, splitCounts_length])
    hd i hi]
  rw [List.range_eq_range']
  rw [takeChunks_range'_getD _ 0 numVbuckets i
    (le_of_eq (splitCounts_sum numVbuckets addrs.length hm2))
    (by rw [splitCounts_length]; exact hi)]
  rw [splitCounts_take_sum numVbuckets addrs.length i (by omega),
    splitCounts_getD numVbuckets addrs.length i hi]
  rw [Nat.zero_add]

theorem initWorkerVbMap_cover (appName : String) (vbs : List Nat) (w : Nat)
    (hw : 0 < w) :
    ((initWorkerVbMap appName vbs w).map Prod.snd).flatten = vbs := by
  unfold initWorkerVbMap
  rw [List.map_snd_zip _ _ (by simp [takeChunks_length, splitCounts_length])]
  exact takeChunks_flatten_all _ _ (splitCounts_sum vbs.length w hw)

theorem initWorkerVbMap_counts (appName : String) (vbs : List Nat) (w j : Nat)
    (hw : 0 < w) (hj : j < w) :
    ((initWorkerVbMap appName vbs w).getD j ("", [])).2.length
      = vbs.length / w + if j < vbs.length % w then 1 else 0 := by
  unfold initWorkerVbMap
  rw [getD_zip_snd _ _ j "" [] (by simpa using hj)
    (by rw [takeChunks_length, splitCounts_length]; exact hj)]
  rw [takeChunks_getD_length vbs _ j
    (le_of_eq (splitCounts_sum vbs.length w hw))
    (by rw [splitCounts_length]; exact hj)]
  exact splitCounts_getD vbs.length w j hj

theorem twoLevelCover (addrs : List String) (numVbuckets : Nat)
    (appName : String) (w : Nat) (hm : addrs ≠ []) (hd : addrs.Nodup)
    (hw : 0 < w) :
    ((List.range addrs.length).map (fun i =>
        ((initWorkerVbMap appName
            (vbucketsToHandle addrs numVbuckets (addrs.getD i "")) w).map
          Prod.snd).flatten)).flatten
      = List.range numVbuckets := by
  have hm2 : 0 < addrs.length := List.length_pos.mpr hm
  have hstep : ∀ i ∈ List.range addrs.length,
      ((initWorkerVbMap appName
          (vbucketsToHandle addrs numVbuckets (addrs.getD i "")) w).map
        Prod.snd).flatten
      = (takeChunks (List.range numVbuckets)
          (splitCounts numVbuckets addrs.length)).getD i [] := by
    intro i hmem
    have hi : i < addrs.length := List.mem_range.mp hmem
    rw [initWorkerVbMap_cover appName _ w hw]
    have hget : addrs.getD i "" = addrs.get ⟨i, hi⟩ := by
      rw [List.getD_eq_getElem addrs "" hi]
      rfl
    rw [hget]
    unfold vbucketsToHandle vbEventingNodeAssign
    exact filter_flatMap_zip _ _
      (by rw [takeChunks_length, splitCounts_length]) hd i hi
  rw [List.map_congr_left hstep]
  have hlenc : (takeChunks (List.range numVbuckets)
      (splitCounts numVbuckets addrs.length)).length = addrs.length := by
    rw [takeChunks_length, splitCounts_length]
  rw [show List.range addrs.length
      = List.range (takeChunks (List.range numVbuckets)
          (splitCounts numVbuckets addrs.length)).length from by rw [hlenc]]
  rw [map_getD_range]
  exact takeChunks_flatten_all _ _
    (by rw [splitCounts_sum numVbuckets addrs.length hm2, List.length_range])

/-- C1: for a non-empty list of `m` eventing node addresses and `N` vbuckets,
with `q = N div m` and `r = N mod m`: the assignment map is total over the
vbuckets `0..N-1` in ascending order (its key list is exactly `0,…,N-1`);
member `i` receives exactly the ascending contiguous block starting at
`i*q + min i r` of length `q + (1 if i < r else 0)`; for every
`workerCount ≥ 1`, `initWorkerVbMap` splits the node's sorted local vbucket
list across the workers by the same rule (the worker chunks concatenate back
to the local list, and worker `j` of a node holding `L` vbuckets gets
`L div workerCount + (1 if j < L mod workerCount else 0)` of them); and the
two levels composed cover `[0,N)` exactly once. -/
theorem vbAssignmentBalancedSplit (addrs : List String) (numVbuckets : Nat)
    (appName : String) (workerCount : Nat)
    (hm : addrs ≠ []) (hd : addrs.Nodup) (hw : 0 < workerCount) :
    ((vbEventingNodeAssign addrs numVbuckets).map Prod.fst
        = List.range numVbuckets)
  ∧ (∀ i, (hi : i < addrs.length) →
      vbucketsToHandle addrs numVbuckets (addrs.get ⟨i, hi⟩)
        = List.range'
            (i * (numVbuckets / addrs.length) +
              min i (numVbuckets % addrs.length))
            (numVbuckets / addrs.length +
              if i < numVbuckets % addrs.length then 1 else 0))
  ∧ (∀ vbs : List Nat,
      ((initWorkerVbMap appName vbs workerCount).map Prod.snd).flatten = vbs)
  ∧ (∀ (vbs : List Nat) (j : Nat), j < workerCount →
      ((initWorkerVbMap appName vbs workerCount).getD j ("", [])).2.length
        = vbs.length / workerCount +
            if j < vbs.length % workerCount then 1 else 0)
  ∧ ((List.range addrs.length).map (fun i =>
        ((initWorkerVbMap appName
            (vbucketsToHandle addrs numVbuckets (addrs.getD i ""))
            workerCount).map Prod.snd).flatten)).flatten
      = List.range numVbuckets :=
  ⟨vbEventingNodeAssign_keys addrs numVbuckets hm,
   fun i hi => vbucketsToHandle_eq addrs numVbuckets i hd hi,
   fun vbs => initWorkerVbMap_cover appName vbs workerCount hw,
   fun vbs j hj => initWorkerVbMap_counts appName vbs workerCount j hw hj,
   twoLevelCover addrs numVbuckets appName workerCount hm hd hw⟩

/-- C1 witness: three nodes and two workers over 8 vbuckets — counts
`[3, 3, 2]` at node level (member 1's block is `[3, 4, 5]`), worker chunks
re-concatenate, worker 0 of member 1 gets 2 vbuckets, and both levels
together cover `0..7`. -/
theorem vbAssignmentBalancedSplit_witness :
    ((vbEventingNodeAssign ["n0", "n1", "n2"] 8).map Prod.fst = List.range 8)
  ∧ vbucketsToHandle ["n0", "n1", "n2"] 8 "n1" = List.range' 3 3
  ∧ ((initWorkerVbMap "a1" [3, 4, 5] 2).map Prod.snd).flatten = [3, 4, 5]
  ∧ ((initWorkerVbMap "a1" [3, 4, 5] 2).getD 0 ("", [])).2.length = 2
  ∧ ((List.range 3).map (fun i =>
        ((initWorkerVbMap "a1"
            (vbucketsToHandle ["n0", "n1", "n2"] 8 (["n0", "n1", "n2"].getD i ""))
            2).map Prod.snd).flatten)).flatten = List.range 8 := by
  have h := vbAssignmentBalancedSplit ["n0", "n1", "n2"] 8 "a1" 2
    (by decide) (by decide) (by decide)
  refine ⟨h.1, ?_, h.2.2.1 [3, 4, 5], ?_, h.2.2.2.2⟩
  · have h2 := h.2.1 1 (by decide)
    simpa using h2
  · have h4 := h.2.2.2.1 [3, 4, 5] 0 (by decide)
    simpa using h4

end Eventing
